import Mathlib

/-!
Shallow embedding of the laser-game input pipeline
(`src/engine/input/laser_input.py`, `src/engine/detect/color_tracker.py`,
`src/engine/calib/homography.py`, `src/engine/app/loop.py`).

Coordinates and intensities are modelled as rationals (`ℚ`); Python ints as `ℤ`.
-/

namespace LaserGame

/-- Models `engine.api.frame_data.Point`: a screen-space coordinate plus intensity. -/
structure Point where
  x : ℚ
  y : ℚ
  intensity : ℚ
deriving DecidableEq, Repr

/-- A 3×3 matrix of rationals, modelling the `np.ndarray` homographies. -/
structure Mat3 where
  m00 : ℚ
  m01 : ℚ
  m02 : ℚ
  m10 : ℚ
  m11 : ℚ
  m12 : ℚ
  m20 : ℚ
  m21 : ℚ
  m22 : ℚ
deriving DecidableEq, Repr

/-- Models `np.eye(3)`: the 3×3 identity matrix. -/
def Mat3.identity : Mat3 := ⟨1, 0, 0, 0, 1, 0, 0, 0, 1⟩

/-- Models `cv2.perspectiveTransform` applied to a single point: projective action of a
3×3 matrix on `(x, y)` (homogeneous coordinates, divided by the third row). -/
def Mat3.perspective (H : Mat3) (p : ℚ × ℚ) : ℚ × ℚ :=
  let w := H.m20 * p.1 + H.m21 * p.2 + H.m22
  ((H.m00 * p.1 + H.m01 * p.2 + H.m02) / w,
   (H.m10 * p.1 + H.m11 * p.2 + H.m12) / w)

/-- Models `laser_input.py` line 53: `x = (w - 1) - x`, the post-transform mirror of the
x-coordinate about the horizontal midline. -/
def mirrorX (w x : ℚ) : ℚ := (w - 1) - x

/-- Models `LaserInput` (`laser_input.py` lines 7-26): per-color caps (the Python dict
modelled as an association list with lowercased keys), optional homography,
mirror flag. -/
structure LaserInput where
  max_points_per_color : List (String × ℤ)
  H : Option Mat3
  mirror : Bool

/-- Python `str.lower()` on the color identifiers: lowercase every character
(identical to `String.toLower`, written over the character list so that it
reduces definitionally). -/
def strLower (s : String) : String := ⟨s.data.map Char.toLower⟩

/-- Models `LaserInput._limit_for` (lines 37-39): look the lowercased color up in the
cap dict, defaulting to 0 for unspecified colors. -/
def LaserInput.limit_for (li : LaserInput) (color : String) : ℤ :=
  (li.max_points_per_color.lookup (strLower color)).getD 0

/-- Models `LaserInput._map_point` (lines 41-55): apply the homography when present
(camera coordinates pass through unchanged when `H` is `None`), then keep the
point only if `0 <= x < w` and `0 <= y < h`, mirroring x afterwards when the
mirror flag is set. -/
def LaserInput.map_point (li : LaserInput) (cam_xy : ℚ × ℚ) (screen_size : ℤ × ℤ) :
    Option (ℚ × ℚ) :=
  let xy : ℚ × ℚ :=
    match li.H with
    | none => cam_xy
    | some H => H.perspective cam_xy
  let w : ℚ := (screen_size.1 : ℚ)
  let h : ℚ := (screen_size.2 : ℚ)
  if 0 ≤ xy.1 ∧ xy.1 < w ∧ 0 ≤ xy.2 ∧ xy.2 < h then
    some (if li.mirror then (mirrorX w xy.1, xy.2) else (xy.1, xy.2))
  else
    none

/-- The descending-intensity ordering used by `mapped.sort(key=..., reverse=True)`
(line 75): `p` precedes `q` when `q.intensity ≤ p.intensity`. -/
def intensityGe (p q : Point) : Prop := q.intensity ≤ p.intensity

instance : DecidableRel intensityGe := fun p q =>
  inferInstanceAs (Decidable (q.intensity ≤ p.intensity))

instance : IsTotal Point intensityGe := ⟨fun p q => le_total q.intensity p.intensity⟩

instance : IsTrans Point intensityGe := ⟨fun _ _ _ h h2 => le_trans h2 h⟩

/-- Body of the per-color loop of `LaserInput.map_and_select` (lines 61-76):
cap ≤ 0 yields `[]`; otherwise map the first `max(1, cap*3)` detections, drop
those out of bounds, sort descending by intensity (Python's stable sort, here
insertion sort which is likewise stable), and truncate to the cap. -/
def LaserInput.selectColor (li : LaserInput) (screen_size : ℤ × ℤ) (color : String)
    (pts : List (ℚ × ℚ × ℚ)) : List Point :=
  let cap := li.limit_for color
  if cap ≤ 0 then []
  else
    let pre_cap := max 1 (cap * 3)
    let mapped : List Point :=
      (pts.take pre_cap.toNat).filterMap fun t =>
        match li.map_point (t.1, t.2.1) screen_size with
        | some m => some ⟨m.1, m.2, t.2.2⟩
        | none => none
    (List.insertionSort intensityGe mapped).take cap.toNat

/-- Models `LaserInput.map_and_select` (lines 57-77): apply `selectColor` to every
color's detection list. -/
def LaserInput.map_and_select (li : LaserInput)
    (detections : List (String × List (ℚ × ℚ × ℚ))) (screen_size : ℤ × ℤ) :
    List (String × List Point) :=
  detections.map fun cd => (cd.1, li.selectColor screen_size cd.1 cd.2)

/-! ### Blob detection (`color_tracker.py`) -/

/-- The quantities the detection loop reads off one contour returned by
`cv2.findContours`: `cv2.contourArea` and the image moments `m00`, `m10`, `m01`
from `cv2.moments` (external computations, carried here as data). -/
structure Contour where
  area : ℚ
  m00 : ℚ
  m10 : ℚ
  m01 : ℚ
deriving DecidableEq, Repr

/-- From `color_tracker.py` line 22. -/
def MIN_BLOB_AREA : ℚ := 8

/-- Python `int(...)` on a rational: truncation toward zero (`num / den` with
integer division on the normalized fraction, whose denominator is positive). -/
def pyInt (q : ℚ) : ℤ := q.num / (q.den : ℤ)

/-- Per-contour loop of `ColorTracker.detect` (`color_tracker.py` lines 84-95):
skip a contour when its area is below `MIN_BLOB_AREA` or its zeroth moment is
not positive; otherwise append `(cx, cy, intensity)` with the truncated centroid
and `intensity = float(area)`. -/
def detectColorPoints : List Contour → List (ℤ × ℤ × ℚ)
  | [] => []
  | c :: rest =>
    if c.area < MIN_BLOB_AREA then detectColorPoints rest
    else if c.m00 ≤ 0 then detectColorPoints rest
    else (pyInt (c.m10 / c.m00), pyInt (c.m01 / c.m00), c.area) :: detectColorPoints rest

/-! ### Calibration stability tracking (`ColorTracker.auto_calibrate`) -/

/-- From `color_tracker.py` line 143. -/
def STABLE_FRAMES : ℕ := 6

/-- From `color_tracker.py` line 144. -/
def STABLE_PIXELS : ℤ := 4

/-- Per-corner loop state of `auto_calibrate` (lines 148-149): the stability
counter `stable` and the last seen detection `last`. -/
structure CalibState where
  stable : ℕ
  last : Option (ℤ × ℤ)
deriving DecidableEq, Repr

/-- One tick of the per-corner loop of `auto_calibrate` (lines 170-182), given
the tick's primary-color detection (`None` when no red blob was found).
Returns the updated state, and `some p` when the corner is captured this tick
(the `detected_cam.append(cam_pt); break` branch).  The source compares
`(dx*dx+dy*dy) ** 0.5 <= STABLE_PIXELS`; since both sides are nonnegative this
is equivalent to `dx*dx + dy*dy ≤ STABLE_PIXELS^2`, the exact form used here. -/
def calibTick (s : CalibState) (cam_pt : Option (ℤ × ℤ)) :
    CalibState × Option (ℤ × ℤ) :=
  match cam_pt with
  | none => (s, none)
  | some p =>
    let stable : ℕ :=
      match s.last with
      | none => 1
      | some l =>
        let dx := p.1 - l.1
        let dy := p.2 - l.2
        if dx * dx + dy * dy ≤ STABLE_PIXELS * STABLE_PIXELS then s.stable + 1 else 1
    if STABLE_FRAMES ≤ stable then (⟨stable, some p⟩, some p)
    else (⟨stable, some p⟩, none)

/-! ### Calibration outcome and the loop's calibration-key handler -/

/-- Outcome of the corner-collection phase of `auto_calibrate` (lines 147-185):
either aborted early (Esc at line 162-163, or the per-corner timeout at lines
184-185), or all four corners captured with the listed camera points. -/
inductive CornerPhase where
  | aborted
  | captured (detected_cam : List (ℤ × ℤ))
deriving DecidableEq, Repr

/-- Result of `ColorTracker.auto_calibrate` (lines 129-193): the returned 3×3
matrix together with the tracker's preview corners after the run.  `fit` stands
for the external `cv2.findHomography` (RANSAC) call at line 189, which returns
`none` when it cannot fit a homography (degenerate/collinear points).  On abort
the function returns `np.eye(3)` immediately, leaving the preview corners at
their previous value `corners0`; on capture it returns the fitted matrix, or
`np.eye(3)` when the fit failed (line 190-191), and stores the captured corners
(line 192). -/
def auto_calibrate_result (fit : List (ℤ × ℤ) → Option Mat3)
    (phase : CornerPhase) (corners0 : List (ℤ × ℤ)) : Mat3 × List (ℤ × ℤ) :=
  match phase with
  | .aborted => (Mat3.identity, corners0)
  | .captured pts => ((fit pts).getD Mat3.identity, pts)

/-- One record of the homography store file: the matrix and the optional four
camera-space corners (`homography.py` lines 30-35). -/
structure StoredRecord where
  H : Mat3
  corners_cam : Option (List (ℤ × ℤ))
deriving DecidableEq, Repr

/-- Durable storage as a mapping from file name to record. -/
def Storage := List (String × StoredRecord)

/-- Models `HomographyStore.__init__` (`homography.py` lines 8-12): the file path used
for a run configured with profile name `profile`.  The constructor takes no
profile argument (the caller `loop.py` line 58 passes `profile_name=`, which
`__init__` does not accept), and the file name is the f-string `f"default.npz"`
with no placeholder — every run resolves to the same file, regardless of the
profile. -/
def HomographyStore.pathFor ( _profile : String) : String := "default.npz"

/-- Models `HomographyStore.save` (lines 30-35): `np.savez_compressed` overwrites the
file at `path` with the record. -/
def HomographyStore.save (fs : Storage) (path : String) (H : Mat3)
    (corners_cam : Option (List (ℤ × ℤ))) : Storage :=
  (path, ⟨H, corners_cam⟩) :: List.filter (fun kv => !(kv.1 == path)) fs

/-- Models `HomographyStore.load` (lines 14-28): `(None, None)` when the file does not
exist, otherwise the stored matrix and optional corners. -/
def HomographyStore.load (fs : Storage) (path : String) :
    Option Mat3 × Option (List (ℤ × ℤ)) :=
  match List.lookup path fs with
  | none => (none, none)
  | some r => (some r.H, r.corners_cam)

/-- The calibration-relevant engine state during `run_game`: the durable store
and the transform held by the `LaserInput` layer. -/
structure EngineState where
  fs : Storage
  inputH : Option Mat3

/-- The `K_c` handler of `run_game` (`loop.py` lines 93-103): run
`auto_calibrate`, save whatever matrix it returned (with the tracker's corners
when there are exactly four), and install that matrix into the input layer via
`set_homography`.  `corners0` is the tracker's preview-corner list before the
run; the final preview-corner refresh (lines 100-103) only repeats
`set_preview_corners_cam` or re-derives the preview from `H` and does not touch
the store or the input layer, so it is not modelled further. -/
def on_calibrate_key (profile : String) (fit : List (ℤ × ℤ) → Option Mat3)
    (phase : CornerPhase) (corners0 : List (ℤ × ℤ)) (st : EngineState) : EngineState :=
  let r := auto_calibrate_result fit phase corners0
  { fs := HomographyStore.save st.fs (HomographyStore.pathFor profile) r.1
      (if r.2.length = 4 then some r.2 else none)
    inputH := some r.1 }

/-! ### Helper lemmas -/

/-- A color whose cap is not positive is mapped to the empty list. -/
lemma selectColor_of_cap_nonpos (li : LaserInput) (ss : ℤ × ℤ) (color : String)
    (pts : List (ℚ × ℚ × ℚ)) (h : li.limit_for color ≤ 0) :
    li.selectColor ss color pts = [] := by
  simp [LaserInput.selectColor, if_pos h]

/-- The per-color output never exceeds the cap. -/
lemma selectColor_length_le (li : LaserInput) (ss : ℤ × ℤ) (color : String)
    (pts : List (ℚ × ℚ × ℚ)) :
    (li.selectColor ss color pts).length ≤ (li.limit_for color).toNat := by
  unfold LaserInput.selectColor
  by_cases h : li.limit_for color ≤ 0
  · simp [if_pos h]
  · simp only [if_neg h]
    exact le_trans (List.length_take_le _ _) (le_refl _)

/-- The per-color output is sorted descending by intensity. -/
lemma selectColor_sorted (li : LaserInput) (ss : ℤ × ℤ) (color : String)
    (pts : List (ℚ × ℚ × ℚ)) :
    List.Sorted intensityGe (li.selectColor ss color pts) := by
  unfold LaserInput.selectColor
  by_cases h : li.limit_for color ≤ 0
  · simp [if_pos h]
  · simp only [if_neg h]
    exact List.Pairwise.sublist (List.take_sublist _ _)
      (List.sorted_insertionSort intensityGe _)

/-! ### Claims -/

/-- Claim C4: for every per-color detection map and cap configuration, each
color's output sequence from `map_and_select` has length at most that color's
configured cap and is sorted in descending order of intensity. -/
theorem C4_output_capped_and_sorted (li : LaserInput)
    (dets : List (String × List (ℚ × ℚ × ℚ))) (ss : ℤ × ℤ)
    (color : String) (out : List Point)
    (h : (color, out) ∈ li.map_and_select dets ss) :
    out.length ≤ (li.limit_for color).toNat ∧ List.Sorted intensityGe out := by
  rcases List.mem_map.mp h with ⟨cd, _, heq⟩
  obtain ⟨h1, h2⟩ := Prod.mk.injEq .. ▸ heq
  subst h1
  exact h2 ▸ ⟨selectColor_length_le li ss cd.1 cd.2, selectColor_sorted li ss cd.1 cd.2⟩

/-- Claim C4 witness: a concrete run with cap 2 and three in-bounds detections
keeps the two highest intensities, within the cap and sorted descending. -/
theorem C4_witness :
    (("red", [(⟨2, 2, 9⟩ : Point), ⟨3, 3, 7⟩]) ∈
      (LaserInput.mk [("red", 2)] none false).map_and_select
        [("red", [(1, 1, 5), (2, 2, 9), (3, 3, 7)])] (10, 10))
    ∧ [(⟨2, 2, 9⟩ : Point), ⟨3, 3, 7⟩].length ≤
        ((LaserInput.mk [("red", 2)] none false).limit_for "red").toNat
    ∧ List.Sorted intensityGe [(⟨2, 2, 9⟩ : Point), ⟨3, 3, 7⟩] := by
  refine ⟨by decide, ?_⟩
  exact C4_output_capped_and_sorted (LaserInput.mk [("red", 2)] none false)
    [("red", [(1, 1, 5), (2, 2, 9), (3, 3, 7)])] (10, 10) "red"
    [⟨2, 2, 9⟩, ⟨3, 3, 7⟩] (by decide)

/-- Claim C5: a color whose configured cap is 0, or which is absent from the
cap configuration, yields an empty output sequence from `map_and_select`
regardless of how many detections of that color are present. -/
theorem C5_cap_zero_or_absent_empty (li : LaserInput)
    (dets : List (String × List (ℚ × ℚ × ℚ))) (ss : ℤ × ℤ)
    (color : String) (out : List Point)
    (h : (color, out) ∈ li.map_and_select dets ss)
    (hcap : li.limit_for color = 0 ∨
      List.lookup (strLower color) li.max_points_per_color = none) :
    out = [] := by
  have hle : li.limit_for color ≤ 0 := by
    rcases hcap with h0 | habs
    · exact le_of_eq h0
    · simp [LaserInput.limit_for, habs]
  rcases List.mem_map.mp h with ⟨cd, _, heq⟩
  obtain ⟨h1, h2⟩ := Prod.mk.injEq .. ▸ heq
  subst h1
  exact h2 ▸ selectColor_of_cap_nonpos li ss cd.1 cd.2 hle

/-- Claim C5 witness: with cap 0 for "red" and "green" unconfigured, both
colors yield empty outputs despite present detections. -/
theorem C5_witness :
    (("green", ([] : List Point)) ∈
      (LaserInput.mk [("red", 0)] none false).map_and_select
        [("red", [(1, 1, 5)]), ("green", [(2, 2, 7)])] (10, 10))
    ∧ List.lookup (strLower "green") [("red", (0 : ℤ))] = none
    ∧ ([] : List Point) = [] := by
  refine ⟨by decide, by decide, ?_⟩
  exact C5_cap_zero_or_absent_empty (LaserInput.mk [("red", 0)] none false)
    [("red", [(1, 1, 5)]), ("green", [(2, 2, 7)])] (10, 10) "green" []
    (by decide) (Or.inr (by decide))

/-- Claim C7: with no calibration transform active, the Point Mapper uses the
camera coordinates unchanged as screen coordinates; it behaves exactly like the
identity transform (same bounds filter, same mirroring afterwards), an explicit
fallback rather than an error.  Stated both as equivalence with the identity
matrix and as the explicit passthrough-then-bounds form. -/
theorem C7_identity_passthrough (mp : List (String × ℤ)) (m : Bool)
    (cam : ℚ × ℚ) (ss : ℤ × ℤ) :
    (LaserInput.mk mp none m).map_point cam ss
      = (LaserInput.mk mp (some Mat3.identity) m).map_point cam ss
    ∧ (LaserInput.mk mp none m).map_point cam ss
      = (if 0 ≤ cam.1 ∧ cam.1 < (ss.1 : ℚ) ∧ 0 ≤ cam.2 ∧ cam.2 < (ss.2 : ℚ) then
          some (if m then (mirrorX (ss.1 : ℚ) cam.1, cam.2) else (cam.1, cam.2))
        else none) := by
  have hid : Mat3.identity.perspective cam = cam := by
    simp [Mat3.perspective, Mat3.identity]
  constructor
  · simp [LaserInput.map_point, hid]
  · simp [LaserInput.map_point]

/-- Claim C9: the mirror transform `x' = w - 1 - x` is an involution on
`[0, w)` (mirroring twice returns the original x-coordinate), and in the Point
Mapper it is applied after the geometric transform and the bounds check: the
mirrored pipeline equals the unmirrored pipeline followed by the mirror. -/
theorem C9_mirror_involution :
    (∀ w x : ℚ, 0 ≤ x → x < w → mirrorX w (mirrorX w x) = x)
    ∧ ∀ (mp : List (String × ℤ)) (H : Option Mat3) (cam : ℚ × ℚ) (ss : ℤ × ℤ),
        (LaserInput.mk mp H true).map_point cam ss
          = Option.map (fun p : ℚ × ℚ => (mirrorX (ss.1 : ℚ) p.1, p.2))
              ((LaserInput.mk mp H false).map_point cam ss) := by
  constructor
  · intro w x _ _
    unfold mirrorX
    ring
  · intro mp H cam ss
    unfold LaserInput.map_point
    cases H <;> (dsimp only; split <;> simp)

/-- Claim C9 witness: mirroring x = 2 twice on a width-5 screen returns 2. -/
theorem C9_witness :
    (0 : ℚ) ≤ 2 ∧ (2 : ℚ) < 5 ∧ mirrorX 5 (mirrorX 5 2) = 2 :=
  ⟨by norm_num, by norm_num,
    C9_mirror_involution.1 5 2 (by norm_num) (by norm_num)⟩

/-- Claim C8: the detection loop discards exactly the contours whose area is
below the minimum-blob-area threshold or whose zeroth moment (total mass, which
for image moments is nonnegative) is zero, and every surviving contour
contributes exactly one detection `(centroid_x, centroid_y, area)` with its
area as intensity. -/
theorem C8_blob_filter (cnts : List Contour) (hmass : ∀ c ∈ cnts, 0 ≤ c.m00) :
    detectColorPoints cnts =
      (cnts.filter fun c => decide (MIN_BLOB_AREA ≤ c.area) && decide (¬ c.m00 = 0)).map
        fun c => (pyInt (c.m10 / c.m00), pyInt (c.m01 / c.m00), c.area) := by
  induction cnts with
  | nil => rfl
  | cons c rest ih =>
    have hc : 0 ≤ c.m00 := hmass c (List.mem_cons_self c rest)
    have hrest := ih fun d hd => hmass d (List.mem_cons_of_mem c hd)
    by_cases ha : c.area < MIN_BLOB_AREA
    · have : ¬ MIN_BLOB_AREA ≤ c.area := not_le.mpr ha
      simp [detectColorPoints, if_pos ha, hrest, List.filter_cons, this]
    · by_cases hm : c.m00 ≤ 0
      · have hz : c.m00 = 0 := le_antisymm hm hc
        simp [detectColorPoints, if_neg ha, if_pos hm, hrest, List.filter_cons, hz]
      · have h1 : MIN_BLOB_AREA ≤ c.area := not_lt.mp ha
        have h2 : ¬ c.m00 = 0 := fun h => hm (le_of_eq h)
        simp [detectColorPoints, if_neg ha, if_neg hm, hrest, List.filter_cons, h1, h2]

/-- Claim C8 witness: of three contours, one of area 10 with mass 5 yields the
single detection (4, 6, 10); one of area 3 (below the threshold 8) and one of
zero mass are discarded. -/
theorem C8_witness :
    (∀ c ∈ [(⟨10, 5, 20, 30⟩ : Contour), ⟨3, 1, 1, 1⟩, ⟨12, 0, 0, 0⟩], 0 ≤ c.m00)
    ∧ detectColorPoints [⟨10, 5, 20, 30⟩, ⟨3, 1, 1, 1⟩, ⟨12, 0, 0, 0⟩]
        = [(4, 6, 10)] :=
  ⟨by decide,
    (C8_blob_filter [⟨10, 5, 20, 30⟩, ⟨3, 1, 1, 1⟩, ⟨12, 0, 0, 0⟩] (by decide)).trans
      (by norm_num [pyInt, MIN_BLOB_AREA, List.filter])⟩

/-- Claim C6: during calibration of one corner, a tick whose detection is
within the pixel-distance tolerance of the previously seen detection increments
the stability counter, any detection farther away resets it to 1; the corner is
captured exactly when the counter reaches the configured threshold of
consecutive stable frames (from any state still below the threshold, capture
happens with the counter exactly at the threshold), and capture records the
detection's position. -/
theorem C6_stability_counter (s : CalibState) (p l : ℤ × ℤ) (h : s.last = some l) :
    ((p.1 - l.1) * (p.1 - l.1) + (p.2 - l.2) * (p.2 - l.2) ≤
        STABLE_PIXELS * STABLE_PIXELS →
      (calibTick s (some p)).1.stable = s.stable + 1)
    ∧ (STABLE_PIXELS * STABLE_PIXELS <
        (p.1 - l.1) * (p.1 - l.1) + (p.2 - l.2) * (p.2 - l.2) →
      (calibTick s (some p)).1.stable = 1)
    ∧ ((calibTick s (some p)).2 =
        if STABLE_FRAMES ≤ (calibTick s (some p)).1.stable then some p else none)
    ∧ (s.stable < STABLE_FRAMES → (calibTick s (some p)).2 ≠ none →
        (calibTick s (some p)).1.stable = STABLE_FRAMES) := by
  refine ⟨fun hnear => ?_, fun hfar => ?_, ?_, fun hlt hcap => ?_⟩
  · simp only [calibTick, h, if_pos hnear]
    split <;> rfl
  · simp only [calibTick, h, if_neg (not_le.mpr hfar)]
    split <;> rfl
  · simp only [calibTick, h]
    by_cases hd : (p.1 - l.1) * (p.1 - l.1) + (p.2 - l.2) * (p.2 - l.2) ≤
        STABLE_PIXELS * STABLE_PIXELS
    · simp only [if_pos hd]
      by_cases ht : STABLE_FRAMES ≤ s.stable + 1
      · simp [if_pos ht]
      · simp [if_neg ht]
    · simp only [if_neg hd]
      have h16 : ¬ STABLE_FRAMES ≤ 1 := by decide
      simp [if_neg h16]
  · simp only [calibTick, h] at hcap ⊢
    by_cases hd : (p.1 - l.1) * (p.1 - l.1) + (p.2 - l.2) * (p.2 - l.2) ≤
        STABLE_PIXELS * STABLE_PIXELS
    · simp only [if_pos hd] at hcap ⊢
      by_cases ht : STABLE_FRAMES ≤ s.stable + 1
      · simp only [if_pos ht]
        have : STABLE_FRAMES = 6 := rfl
        omega
      · rw [if_neg ht] at hcap
        simp at hcap
    · simp only [if_neg hd] at hcap ⊢
      have h16 : ¬ STABLE_FRAMES ≤ 1 := by decide
      rw [if_neg h16] at hcap
      simp at hcap

/-- Claim C6 witness: from counter 5 with last detection (3, 3), a detection at
(4, 4) (squared distance 2 ≤ 16) increments the counter to 6 = threshold, and
the corner is captured at (4, 4). -/
theorem C6_witness :
    (⟨5, some (3, 3)⟩ : CalibState).last = some (3, 3)
    ∧ (((4, 4) : ℤ × ℤ).1 - ((3, 3) : ℤ × ℤ).1) * (((4, 4) : ℤ × ℤ).1 - ((3, 3) : ℤ × ℤ).1)
        + (((4, 4) : ℤ × ℤ).2 - ((3, 3) : ℤ × ℤ).2) * (((4, 4) : ℤ × ℤ).2 - ((3, 3) : ℤ × ℤ).2)
        ≤ STABLE_PIXELS * STABLE_PIXELS
    ∧ (calibTick ⟨5, some (3, 3)⟩ (some (4, 4))).1.stable = 5 + 1
    ∧ (calibTick ⟨5, some (3, 3)⟩ (some (4, 4))).2 = some (4, 4) :=
  ⟨rfl, by decide,
    (C6_stability_counter ⟨5, some (3, 3)⟩ (4, 4) (3, 3) rfl).1 (by decide),
    by decide⟩

/-- The per-color selection is unchanged when the input is truncated to the
first `max 1 (cap * 3)` detections: only that window is ever inspected. -/
lemma selectColor_take_pre_cap (li : LaserInput) (ss : ℤ × ℤ) (color : String)
    (pts : List (ℚ × ℚ × ℚ)) (hc : ¬ li.limit_for color ≤ 0) :
    li.selectColor ss color (pts.take (max 1 (li.limit_for color * 3)).toNat)
      = li.selectColor ss color pts := by
  unfold LaserInput.selectColor
  rw [if_neg hc, if_neg hc]
  simp only [List.take_take, min_self]

/-- Claim C10: for a color with configured cap `c ≥ 1`, `map_and_select`
considers only the first `max 1 (3 * c)` detections of the input sequence:
the output is unchanged when the input is truncated to that window, and every
output point arises (via `_map_point`) from a detection inside the window — so
a detection ranked at or below position `max 1 (3 * c)` never appears in the
output, even when the bounds filter rejects enough higher-ranked detections to
leave the cap unfilled. -/
theorem C10_pre_cap_window (li : LaserInput) (ss : ℤ × ℤ) (color : String)
    (pts : List (ℚ × ℚ × ℚ)) (h : 1 ≤ li.limit_for color) :
    li.map_and_select [(color, pts)] ss
      = li.map_and_select
          [(color, pts.take (max 1 (li.limit_for color * 3)).toNat)] ss
    ∧ ∀ p ∈ li.selectColor ss color pts,
        ∃ t ∈ pts.take (max 1 (li.limit_for color * 3)).toNat,
          ∃ m, li.map_point (t.1, t.2.1) ss = some m
            ∧ p = ⟨m.1, m.2, t.2.2⟩ := by
  have hc : ¬ li.limit_for color ≤ 0 := not_le.mpr (by linarith)
  constructor
  · unfold LaserInput.map_and_select
    simp [selectColor_take_pre_cap li ss color pts hc]
  · intro p hp
    simp only [LaserInput.selectColor, if_neg hc] at hp
    have hp2 : p ∈ (pts.take (max 1 (li.limit_for color * 3)).toNat).filterMap
        fun t => match li.map_point (t.1, t.2.1) ss with
          | some m => some (⟨m.1, m.2, t.2.2⟩ : Point)
          | none => none :=
      ((List.perm_insertionSort intensityGe _).mem_iff).mp (List.mem_of_mem_take hp)
    rcases List.mem_filterMap.mp hp2 with ⟨t, ht, hft⟩
    cases hm : li.map_point (t.1, t.2.1) ss with
    | none => rw [hm] at hft; exact absurd hft (by simp)
    | some m =>
      rw [hm] at hft
      exact ⟨t, ht, m, hm, (Option.some.injEq .. ▸ hft).symm⟩

/-- Claim C10 witness: with cap 1 the window is 3, so the fourth detection —
even with the highest intensity — never influences the output. -/
theorem C10_witness :
    1 ≤ (LaserInput.mk [("red", 1)] none false).limit_for "red"
    ∧ (LaserInput.mk [("red", 1)] none false).map_and_select
        [("red", [(1, 1, 5), (2, 2, 6), (3, 3, 7), (4, 4, 99)])] (10, 10)
      = (LaserInput.mk [("red", 1)] none false).map_and_select
          [("red", ([(1, 1, 5), (2, 2, 6), (3, 3, 7), (4, 4, 99)] :
              List (ℚ × ℚ × ℚ)).take
            (max 1 ((LaserInput.mk [("red", 1)] none false).limit_for "red" * 3)).toNat)]
          (10, 10) :=
  ⟨by decide,
    (C10_pre_cap_window (LaserInput.mk [("red", 1)] none false) (10, 10) "red"
      [(1, 1, 5), (2, 2, 6), (3, 3, 7), (4, 4, 99)] (by decide)).1⟩

/-- Claim C1 counterexample: a run that ends in user cancel (or per-corner
timeout) does not leave the previously active transform untouched.  With the
scale-by-2 homography active and persisted, an aborted run makes the `K_c`
handler install and persist the identity matrix instead: both the `LaserInput`
transform and the stored record differ from their values before the run. -/
theorem C1_counterexample :
    ((on_calibrate_key "default" (fun _ => none) CornerPhase.aborted []
        ⟨[("default.npz", ⟨⟨2, 0, 0, 0, 2, 0, 0, 0, 1⟩, none⟩)],
          some ⟨2, 0, 0, 0, 2, 0, 0, 0, 1⟩⟩).inputH
      ≠ some ⟨2, 0, 0, 0, 2, 0, 0, 0, 1⟩)
    ∧ ((HomographyStore.load
        (on_calibrate_key "default" (fun _ => none) CornerPhase.aborted []
          ⟨[("default.npz", ⟨⟨2, 0, 0, 0, 2, 0, 0, 0, 1⟩, none⟩)],
            some ⟨2, 0, 0, 0, 2, 0, 0, 0, 1⟩⟩).fs
        (HomographyStore.pathFor "default")).1
      ≠ some ⟨2, 0, 0, 0, 2, 0, 0, 0, 1⟩) := by
  constructor <;> decide

/-- Claim C1 amended: after a calibration run that ends in user cancel,
per-corner timeout, or a failed homography fit, `auto_calibrate` returns the
identity matrix and the loop handler replaces both the transform held by
`LaserInput` and the persisted record with that identity — the previous
transform is overwritten, not retained. -/
theorem C1_abort_replaces_with_identity (profile : String)
    (fit : List (ℤ × ℤ) → Option Mat3) (corners0 : List (ℤ × ℤ))
    (st : EngineState) :
    ((on_calibrate_key profile fit CornerPhase.aborted corners0 st).inputH
        = some Mat3.identity
      ∧ HomographyStore.load
          (on_calibrate_key profile fit CornerPhase.aborted corners0 st).fs
          (HomographyStore.pathFor profile)
        = (some Mat3.identity,
            if corners0.length = 4 then some corners0 else none))
    ∧ ∀ pts, fit pts = none →
        (on_calibrate_key profile fit (CornerPhase.captured pts) corners0 st).inputH
          = some Mat3.identity
        ∧ (HomographyStore.load
            (on_calibrate_key profile fit (CornerPhase.captured pts) corners0 st).fs
            (HomographyStore.pathFor profile)).1 = some Mat3.identity := by
  refine ⟨⟨rfl, ?_⟩, fun pts hfit => ⟨?_, ?_⟩⟩
  · simp [on_calibrate_key, auto_calibrate_result, HomographyStore.save,
      HomographyStore.load, List.lookup]
  · simp [on_calibrate_key, auto_calibrate_result, hfit]
  · simp [on_calibrate_key, auto_calibrate_result, hfit, HomographyStore.save,
      HomographyStore.load, List.lookup]

/-- Claim C1 witness: a failed fit on a concrete captured list makes the
handler install the identity transform. -/
theorem C1_witness :
    ((fun _ : List (ℤ × ℤ) => (none : Option Mat3)) [(1, 1)] = none)
    ∧ (on_calibrate_key "p" (fun _ => none) (CornerPhase.captured [(1, 1)]) []
        ⟨[], none⟩).inputH = some Mat3.identity :=
  ⟨rfl,
    ((C1_abort_replaces_with_identity "p" (fun _ => none) [] ⟨[], none⟩).2
      [(1, 1)] rfl).1⟩

/-- Claim C2 counterexample: with four collinear captured corners — on which
`cv2.findHomography` cannot fit and returns `None` — calibration does not
report failure: `auto_calibrate` returns the identity matrix, and the loop
handler installs and persists it as the active transform. -/
theorem C2_counterexample :
    auto_calibrate_result (fun _ => none)
        (CornerPhase.captured [(0, 0), (1, 1), (2, 2), (3, 3)]) []
      = (Mat3.identity, [(0, 0), (1, 1), (2, 2), (3, 3)])
    ∧ (on_calibrate_key "default" (fun _ => none)
        (CornerPhase.captured [(0, 0), (1, 1), (2, 2), (3, 3)]) []
        ⟨[], none⟩).inputH = some Mat3.identity
    ∧ (HomographyStore.load
        (on_calibrate_key "default" (fun _ => none)
          (CornerPhase.captured [(0, 0), (1, 1), (2, 2), (3, 3)]) []
          ⟨[], none⟩).fs
        (HomographyStore.pathFor "default")).1 = some Mat3.identity := by
  refine ⟨rfl, rfl, by decide⟩

/-- Claim C2 amended: when the homography fit step fails (as on degenerate or
collinear points, where `cv2.findHomography` returns `None`), `auto_calibrate`
substitutes the 3×3 identity matrix and returns it as the calibration result,
keeping the captured corners; no failure is signalled to the caller, which
installs the identity as the active transform. -/
theorem C2_fit_failure_identity (profile : String)
    (fit : List (ℤ × ℤ) → Option Mat3) (pts corners0 : List (ℤ × ℤ))
    (st : EngineState) (hfit : fit pts = none) :
    auto_calibrate_result fit (CornerPhase.captured pts) corners0
      = (Mat3.identity, pts)
    ∧ (on_calibrate_key profile fit (CornerPhase.captured pts) corners0 st).inputH
        = some Mat3.identity := by
  constructor <;> simp [auto_calibrate_result, on_calibrate_key, hfit]

/-- Claim C2 witness: a concrete failed fit produces the identity result. -/
theorem C2_witness :
    ((fun _ : List (ℤ × ℤ) => (none : Option Mat3)) [(0, 0)] = none)
    ∧ auto_calibrate_result (fun _ => none) (CornerPhase.captured [(0, 0)]) []
        = (Mat3.identity, [(0, 0)]) :=
  ⟨rfl,
    (C2_fit_failure_identity "p" (fun _ => none) [(0, 0)] [] ⟨[], none⟩ rfl).1⟩

/-- Claim C3: calibration persistence is not keyed by the profile name — the
store path is the same for every profile (the constructor does not even accept
one), so a transform saved during a run configured with profile "alice" is
returned when a run configured with profile "bob" loads, instead of "no
transform". -/
theorem C3_store_not_keyed_by_profile :
    HomographyStore.pathFor "alice" = HomographyStore.pathFor "bob"
    ∧ HomographyStore.load
        (HomographyStore.save [] (HomographyStore.pathFor "alice")
          ⟨2, 0, 0, 0, 2, 0, 0, 0, 1⟩ none)
        (HomographyStore.pathFor "bob")
      = (some ⟨2, 0, 0, 0, 2, 0, 0, 0, 1⟩, none) := by
  constructor <;> decide

end LaserGame
